import Mathlib

/-!
# Verification of the aws-replicator resource-state replication engine

Shallow embedding of `aws-replicator/aws_replicator/service_states.py`:
per-resource-kind remote enumerators, the wire envelope
(`ReplicateStateRequest`), the transport bridge (`_post_request_to_instance`)
and the local injectors, together with proofs of the spec's claims about them.

Conventions of the embedding:
* Python dicts with a known shape become structures; a dict field that may be
  absent or `None` becomes `Option (Option _)` (outer `none` = key absent,
  `some none` = key present with value `None`).
* The unbounded `while` loops (SQS drain loop, DynamoDB scan loop) become
  fuel-indexed recursive functions returning `Option`; `none` means the fuel
  ran out before the loop's own exit condition fired.
* The remote service is a pure oracle: the SQS remote is a function from the
  poll index to that poll's response, the DynamoDB remote is a function from
  the requested `ExclusiveStartKey` to the returned page.
* Writes performed against the local instance — either a POST of the envelope
  to the internal handler or a direct write through a local service client —
  are recorded as an explicit `Effect` trace.
-/

/-- One SQS message, as the dict shipped between `receive_message` and
`queue.put(Message(**message))`. `md5OfMessageAttributes` is
`none` when the key is absent from the dict, `some none` when it is
present with value `None` (the default installed by `setdefault`). -/
structure MsgDict where
  body : String
  md5OfMessageAttributes : Option (Option String)
deriving DecidableEq, Repr

/-- `message.setdefault("MD5OfMessageAttributes", None)`: install `None`
if the key is absent, keep the existing value otherwise. -/
def setdefaultMD5 (m : MsgDict) : MsgDict :=
  match m.md5OfMessageAttributes with
  | none => { m with md5OfMessageAttributes := some none }
  | some _ => m

/-- The `Properties` dict of a queue replication request: the resource
props (`QueueName`) together with the drained `Messages` list. -/
structure QueueProperties where
  queueName : String
  messages : List MsgDict
deriving DecidableEq, Repr

/-- The wire envelope `ReplicateStateRequest` (queue kind is the only kind
that ever builds one): resource type name, physical id, properties. -/
structure ReplicateStateRequest where
  resourceType : String
  physicalResourceId : String
  properties : QueueProperties
deriving DecidableEq, Repr

/-- A write against the local instance: either a POST of the envelope to the
internal handler path (`_post_request_to_instance`, the transport bridge),
or a direct write through a local service client
(`aws_stack.connect_to_resource(...)`), tagged with service name and key. -/
inductive Effect where
  | postToInstance (req : ReplicateStateRequest)
  | localServicePut (service : String) (key : String)
deriving DecidableEq, Repr

/-- Whether an effect trace routes anything through the transport bridge. -/
def usesBridge (effects : List Effect) : Bool :=
  effects.any fun e =>
    match e with
    | Effect.postToInstance _ => true
    | Effect.localServicePut _ _ => false

/-! ## SQS: remote enumeration (`StateReplicatorSQSQueue.add_extended_state_external`) -/

/-- One `receive_message` response: `none` when the `Messages` key is
absent from the response dict, `some msgs` when it holds `msgs`. -/
abbrev PollResponse := Option (List MsgDict)

/-- Python truthiness of `response.get("Messages")`: `if not msgs: break`
fires when the key is absent, the value is `None`-like, or the list is empty.
(A `None` value and an absent key are both `none` here.) -/
def isEmptyResp : PollResponse → Bool
  | none => true
  | some [] => true
  | some (_ :: _) => false

/-- The drain loop: `while True: receive_message; if not msgs: break;
messages.extend(msgs)`. `polls i` is the response of the `i`-th poll;
`fuel` bounds the number of iterations; `none` = fuel exhausted before
an empty poll. -/
def drainLoop (polls : Nat → PollResponse) :
    Nat → Nat → List MsgDict → Option (List MsgDict)
  | 0, _, _ => none
  | fuel + 1, i, acc =>
    match polls i with
    | none => some acc
    | some [] => some acc
    | some (m :: ms) => drainLoop polls fuel (i + 1) (acc ++ (m :: ms))

/-- The successive nonempty batches the drain loop consumes, up to (and
excluding) the first empty poll, within `fuel` polls starting at index `i`. -/
def pollBatches (polls : Nat → PollResponse) :
    Nat → Nat → List (List MsgDict)
  | 0, _ => []
  | fuel + 1, i =>
    match polls i with
    | none => []
    | some [] => []
    | some (m :: ms) => (m :: ms) :: pollBatches polls fuel (i + 1)

/-- `StateReplicatorSQSQueue.add_extended_state_external`: drain the remote
queue, build the `ReplicateStateRequest` (type `AWS::SQS::Queue`, physical
id = the queue URL, properties = props plus the drained `Messages`), and
POST it to the internal instance. Result: the request together with the
effect trace (the single POST); `none` if the drain loop did not finish
within `fuel` polls. -/
def sqsAddExtendedStateExternal (queueName queueUrl : String)
    (polls : Nat → PollResponse) (fuel : Nat) :
    Option (ReplicateStateRequest × List Effect) :=
  match drainLoop polls fuel 0 [] with
  | none => none
  | some msgs =>
    let req : ReplicateStateRequest :=
      { resourceType := "AWS::SQS::Queue"
        physicalResourceId := queueUrl
        properties := { queueName := queueName, messages := msgs } }
    some (req, [Effect.postToInstance req])

/-! ## SQS: local injection (`StateReplicatorSQSQueue.add_extended_state_internal`) -/

/-- The decoded state dict received by the internal handler, as far as queue
injection reads it: the `Messages` field may be absent (`none`), present
with value `None` (`some none`), or present with a list. -/
structure QueueReplState where
  messages : Option (Option (List MsgDict))
deriving DecidableEq, Repr

/-- `state.get("Messages") or []`: absent, `None` and `[]` all collapse to
the empty list. -/
def getMessages (s : QueueReplState) : List MsgDict :=
  match s.messages with
  | none => []
  | some none => []
  | some (some l) => l

/-- A region's queue store (`details.queues`): association list from queue
name to the queue's message list. -/
abbrev QueueStore := List (String × List MsgDict)

/-- `details.queues.get(queue_name)`. -/
def lookupQueue : QueueStore → String → Option (List MsgDict)
  | [], _ => none
  | (n, q) :: rest, name => if n = name then some q else lookupQueue rest name

/-- `for message in messages: message.setdefault(...); queue.put(Message(**message))`
applied to the named queue of a store: append the payload, each message with
the `MD5OfMessageAttributes` default installed. -/
def putQueueMessages : QueueStore → String → List MsgDict → QueueStore
  | [], _, _ => []
  | (n, q) :: rest, name, msgs =>
    if n = name then (n, q ++ msgs.map setdefaultMD5) :: rest
    else (n, q) :: putQueueMessages rest name msgs

/-- The region registry `SqsBackend.regions()`: association list from region
name to its queue store, in the registry's iteration order. -/
abbrev SqsRegions := List (String × QueueStore)

/-- The region scan of `add_extended_state_internal`: walk the regions in
order; a region without the queue is skipped (`continue`), the first region
holding it receives the messages and the loop `break`s, leaving every later
region untouched. A run that matches no region falls off the loop and
changes nothing — the source has no failure path here. -/
def injectQueueRegions (name : String) (msgs : List MsgDict) :
    SqsRegions → SqsRegions
  | [] => []
  | (r, queues) :: rest =>
    match lookupQueue queues name with
    | none => (r, queues) :: injectQueueRegions name msgs rest
    | some _ => (r, putQueueMessages queues name msgs) :: rest

/-- `StateReplicatorSQSQueue.add_extended_state_internal`: extract the
messages from the decoded state and inject them into the first region
holding the named queue. Total: the source raises nothing on this path. -/
def sqsAddExtendedStateInternal (queueName : String) (state : QueueReplState)
    (regions : SqsRegions) : SqsRegions :=
  injectQueueRegions queueName (getMessages state) regions

/-- First queue of the given name across the region registry, in region
order — the queue the injector targets. -/
def findQueue : SqsRegions → String → Option (List MsgDict)
  | [], _ => none
  | (_, queues) :: rest, name =>
    match lookupQueue queues name with
    | some q => some q
    | none => findQueue rest name

/-! ## DynamoDB: table model and replication
(`StateReplicatorDynamoDBTable.add_extended_state_external`) -/

/-- One table row: its primary key (rendered canonically) and its attribute
map. The core never interprets the attributes. -/
structure TableItem where
  key : String
  attrs : List (String × String)
deriving DecidableEq, Repr

/-- The local table: a keyed item store, item looked up by primary key. -/
def DDBTable : Type := String → Option TableItem

/-- `batch.put_item(Item=item)`: upsert — insert, overwriting any existing
item with the same primary key. -/
def putItem (t : DDBTable) (it : TableItem) : DDBTable :=
  fun k => if k = it.key then some it else t k

/-- Writing a batch of rows in order through the batch writer. -/
def ddbWriteRows (t : DDBTable) (rows : List TableItem) : DDBTable :=
  rows.foldl putItem t

/-- One `scan` response: the page's items and the opaque continuation key
(`LastEvaluatedKey`), absent on the last page. -/
structure ScanPage where
  items : List TableItem
  lastEvaluatedKey : Option String
deriving Repr

/-- The scan loop of `add_extended_state_external`: the first request sends
no `ExclusiveStartKey` (`k = none`), each later request resumes from the
previous response's `LastEvaluatedKey`; every page's items are batch-written
into the local table (recorded as direct `dynamodb` service writes); the
loop exits when a response carries no continuation key. `fuel` bounds the
iterations; `none` = fuel exhausted first. -/
def ddbScanLoop (remote : Option String → ScanPage) :
    Nat → Option String → DDBTable → List Effect →
    Option (DDBTable × List Effect)
  | 0, _, _, _ => none
  | fuel + 1, k, t, effs =>
    let page := remote k
    let t2 := ddbWriteRows t page.items
    let effs2 := effs ++ page.items.map fun it =>
      Effect.localServicePut "dynamodb" it.key
    match page.lastEvaluatedKey with
    | none => some (t2, effs2)
    | some k2 => ddbScanLoop remote fuel (some k2) t2 effs2

/-- `StateReplicatorDynamoDBTable.add_extended_state_external`: full scan of
the remote table from an initial keyless request, writing every page into
the local table through the local service client. No envelope is built and
nothing is posted to the internal instance on this path. -/
def ddbAddExtendedStateExternal (remote : Option String → ScanPage)
    (localTable : DDBTable) (fuel : Nat) : Option (DDBTable × List Effect) :=
  ddbScanLoop remote fuel none localTable []

/-- Whether the scan's continuation-key chain, started at `k`, reaches a
page with no `LastEvaluatedKey` within `fuel` requests. -/
def ddbTerminates (remote : Option String → ScanPage) :
    Nat → Option String → Bool
  | 0, _ => false
  | fuel + 1, k =>
    match (remote k).lastEvaluatedKey with
    | none => true
    | some k2 => ddbTerminates remote fuel (some k2)

/-- The pages visited along the continuation-key chain from `k`, up to and
including the first page without a continuation key (truncated at `fuel`). -/
def ddbPages (remote : Option String → ScanPage) :
    Nat → Option String → List ScanPage
  | 0, _ => []
  | fuel + 1, k =>
    let page := remote k
    match page.lastEvaluatedKey with
    | none => [page]
    | some k2 => page :: ddbPages remote fuel (some k2)

/-! ## S3: bucket replication (`StateReplicatorS3Bucket.add_extended_state_external`) -/

/-- `max_object_size = 1000 * 1000`. -/
def maxObjectSize : Nat := 1000 * 1000

/-- One remote bucket object from the listing: key, size (bytes, from the
listing metadata) and the byte content fetched by `obj.get()["Body"].read()`. -/
structure S3Obj where
  key : String
  size : Nat
  content : List Nat
deriving DecidableEq, Repr

/-- The local bucket: a keyed byte store. -/
def S3LocalBucket : Type := String → Option (List Nat)

/-- `copy_object`: an object strictly larger than `max_object_size`
(`obj.size > max_object_size`) is skipped; otherwise its content is written
to the local bucket under its key (a direct `s3` service write). -/
def copyObject (acc : S3LocalBucket × List Effect) (obj : S3Obj) :
    S3LocalBucket × List Effect :=
  if obj.size > maxObjectSize then acc
  else
    (fun k => if k = obj.key then some obj.content else acc.1 k,
     acc.2 ++ [Effect.localServicePut "s3" obj.key])

/-- `StateReplicatorS3Bucket.add_extended_state_external`: copy every listed
object through `copy_object`. The worker pool (`parallelize`, size 15) only
parallelizes the copies; since keys are distinct and each copy writes its
own key, the resulting bucket is order-independent and is embedded as the
sequential fold over the listing. No envelope is posted on this path. -/
def s3AddExtendedStateExternal (localBucket : S3LocalBucket)
    (objs : List S3Obj) : S3LocalBucket × List Effect :=
  objs.foldl copyObject (localBucket, [])

/-! ## Transport bridge (`_post_request_to_instance`) -/

/-- The HTTP response received from the internal instance. -/
structure HTTPResponse where
  statusCode : Nat
deriving DecidableEq, Repr

/-- `response.ok` of the requests library: true iff the status code is
below 400. -/
def responseOk (r : HTTPResponse) : Bool := r.statusCode < 400

/-- The failure of `_post_request_to_instance`: `assert response.ok`
raising on a non-ok response. -/
inductive TransportFailure where
  | assertionError
deriving DecidableEq, Repr

/-- `_post_request_to_instance`: POST the request, `assert response.ok`,
return the response. Parametrized by the response the internal instance
produced; a non-ok response makes the call raise instead of returning. -/
def postRequestToInstance (_req : ReplicateStateRequest)
    (resp : HTTPResponse) : Except TransportFailure HTTPResponse :=
  if responseOk resp then Except.ok resp else Except.error .assertionError

/-! ## Helper lemmas -/

/-- Last-wins lookup of a key inside a batch of rows: the value the final
occurrence of the key carries, if any. -/
def rowsValue (rows : List TableItem) (k : String) : Option TableItem :=
  match rows with
  | [] => none
  | it :: rest =>
    match rowsValue rest k with
    | some v => some v
    | none => if it.key = k then some it else none

lemma ddbWriteRows_apply (rows : List TableItem) (t : DDBTable) (k : String) :
    ddbWriteRows t rows k =
      match rowsValue rows k with
      | some v => some v
      | none => t k := by
  induction rows generalizing t with
  | nil => rfl
  | cons it rest ih =>
    show ddbWriteRows (putItem t it) rest k = _
    rw [ih]
    cases h : rowsValue rest k with
    | some v => simp [rowsValue, h]
    | none =>
      by_cases hk : it.key = k
      · simp [rowsValue, h, hk, putItem]
      · have hk2 : ¬ k = it.key := fun hkk => hk hkk.symm
        simp [rowsValue, h, hk, hk2, putItem]

lemma lookupQueue_putQueueMessages (queues : QueueStore) (name : String)
    (msgs : List MsgDict) :
    lookupQueue (putQueueMessages queues name msgs) name
      = (lookupQueue queues name).map (· ++ msgs.map setdefaultMD5) := by
  induction queues with
  | nil => rfl
  | cons p rest ih =>
    obtain ⟨n, q⟩ := p
    by_cases h : n = name
    · simp [putQueueMessages, lookupQueue, h]
    · simp [putQueueMessages, lookupQueue, h, ih]

lemma putQueueMessages_nil (queues : QueueStore) (name : String) :
    putQueueMessages queues name [] = queues := by
  induction queues with
  | nil => rfl
  | cons p rest ih =>
    obtain ⟨n, q⟩ := p
    by_cases h : n = name
    · simp [putQueueMessages, h]
    · simp [putQueueMessages, h, ih]

lemma injectQueueRegions_nil (name : String) (regs : SqsRegions) :
    injectQueueRegions name [] regs = regs := by
  induction regs with
  | nil => rfl
  | cons p rest ih =>
    obtain ⟨r, queues⟩ := p
    cases h : lookupQueue queues name with
    | none => simp [injectQueueRegions, h, ih]
    | some q => simp [injectQueueRegions, h, putQueueMessages_nil]

lemma findQueue_injectQueueRegions (name : String) (msgs : List MsgDict)
    (regs : SqsRegions) :
    findQueue (injectQueueRegions name msgs regs) name
      = (findQueue regs name).map (· ++ msgs.map setdefaultMD5) := by
  induction regs with
  | nil => rfl
  | cons p rest ih =>
    obtain ⟨r, queues⟩ := p
    cases h : lookupQueue queues name with
    | none => simp [injectQueueRegions, findQueue, h, ih]
    | some q =>
      simp [injectQueueRegions, findQueue, h, lookupQueue_putQueueMessages]

/-! ## Claims -/

/-- C2: table injection is idempotent — writing the same payload of rows a
second time through the batch upsert path (`batch.put_item`, keyed on the
primary key) leaves the local table exactly as after the first write. -/
theorem table_injection_idempotent (t : DDBTable) (rows : List TableItem) :
    ddbWriteRows (ddbWriteRows t rows) rows = ddbWriteRows t rows := by
  funext k
  rw [ddbWriteRows_apply, ddbWriteRows_apply]
  cases h : rowsValue rows k <;> simp

/-- C8: `_post_request_to_instance` returns normally exactly when the
response has a success status (`response.ok`, i.e. status code < 400);
any non-success status makes the call raise (`assert response.ok`)
instead of returning. -/
theorem transport_nonsuccess_is_fatal (req : ReplicateStateRequest)
    (resp : HTTPResponse) :
    (postRequestToInstance req resp = Except.ok resp ↔ responseOk resp = true)
    ∧ ((∃ e, postRequestToInstance req resp = Except.error e)
        ↔ responseOk resp = false) := by
  cases h : responseOk resp with
  | true => simp [postRequestToInstance, h]
  | false =>
    simp [postRequestToInstance, h]
    exact ⟨TransportFailure.assertionError, trivial⟩

/-- C4 (counterexample): injecting a non-empty payload when no region's
queue store holds the target queue does NOT fail with any error — the
injection completes silently and returns every region unchanged. -/
theorem queue_inject_missing_target_counterexample :
    sqsAddExtendedStateInternal "missing"
        ⟨some (some [⟨"hello", none⟩])⟩
        [("us-east-1", [("other-queue", [])])]
      = [("us-east-1", [("other-queue", [])])] := by
  decide

/-- C4 (amended): when no local backend matches the descriptor's identity
(no region's queue store contains the target queue name), injection
completes silently as a no-op — the source has no failure path, so no
`TargetResourceMissingError` (or any error) is raised and every region is
left unchanged. -/
theorem queue_inject_missing_target_silent_noop (name : String)
    (st : QueueReplState) (regs : SqsRegions)
    (h : ∀ e ∈ regs, lookupQueue e.2 name = none) :
    sqsAddExtendedStateInternal name st regs = regs := by
  unfold sqsAddExtendedStateInternal
  induction regs with
  | nil => rfl
  | cons p rest ih =>
    obtain ⟨r, queues⟩ := p
    have h1 : lookupQueue queues name = none := h (r, queues) (by simp)
    have h2 : ∀ e ∈ rest, lookupQueue e.2 name = none :=
      fun e he => h e (by simp [he])
    simp [injectQueueRegions, h1, ih h2]

theorem queue_inject_missing_target_silent_noop_witness :
    sqsAddExtendedStateInternal "q" ⟨some (some [⟨"b", none⟩])⟩
        [("r1", [("p", [])]), ("r2", [])]
      = [("r1", [("p", [])]), ("r2", [])] :=
  queue_inject_missing_target_silent_noop "q" ⟨some (some [⟨"b", none⟩])⟩
    [("r1", [("p", [])]), ("r2", [])] (by decide)

/-- C10: when the decoded state's `Messages` field is absent, `None`, or an
empty list, queue injection completes without raising and leaves every
queue in every region unchanged (`state.get("Messages") or []` collapses
all three cases to the empty payload, and injecting an empty payload
changes nothing). -/
theorem queue_inject_no_messages_noop (name : String) (st : QueueReplState)
    (regs : SqsRegions)
    (h : st.messages = none ∨ st.messages = some none
        ∨ st.messages = some (some [])) :
    sqsAddExtendedStateInternal name st regs = regs := by
  have hm : getMessages st = [] := by
    rcases h with h | h | h <;> simp [getMessages, h]
  unfold sqsAddExtendedStateInternal
  rw [hm, injectQueueRegions_nil]

theorem queue_inject_no_messages_noop_witness :
    sqsAddExtendedStateInternal "q" ⟨some none⟩ [("r1", [("q", [⟨"b", none⟩])])]
      = [("r1", [("q", [⟨"b", none⟩])])] :=
  queue_inject_no_messages_noop "q" ⟨some none⟩
    [("r1", [("q", [⟨"b", none⟩])])] (Or.inr (Or.inl rfl))

/-- C3 (counterexample): the doubling statement fails on a queue that is
not initially empty. Region `r1` holds queue `q` with one pre-existing
message; injecting a one-message payload once yields 2 messages, injecting
it twice yields 3 messages — not double (4) the single-injection count. -/
theorem queue_inject_doubling_counterexample :
    ((findQueue
        (sqsAddExtendedStateInternal "q" ⟨some (some [⟨"m", none⟩])⟩
          (sqsAddExtendedStateInternal "q" ⟨some (some [⟨"m", none⟩])⟩
            [("r1", [("q", [⟨"m0", some none⟩])])])) "q").map List.length
      = some 3)
    ∧ ((findQueue
        (sqsAddExtendedStateInternal "q" ⟨some (some [⟨"m", none⟩])⟩
          [("r1", [("q", [⟨"m0", some none⟩])])]) "q").map List.length
      = some 2)
    ∧ (3 : Nat) ≠ 2 * 2 := by
  decide

/-- C3 (amended): queue injection is not idempotent — it appends the
payload on every invocation with no deduplication. If the first local queue
of the target name holds `q` messages, one injection leaves it with
`q.length + n` messages and a second identical injection with
`q.length + 2·n` messages, where `n` is the payload length; the count
doubles exactly when the queue starts empty. -/
theorem queue_inject_appends_payload_each_time (name : String)
    (st : QueueReplState) (regs : SqsRegions) (q : List MsgDict)
    (h : findQueue regs name = some q) :
    ((findQueue (sqsAddExtendedStateInternal name st regs) name).map List.length
        = some (q.length + (getMessages st).length))
    ∧ ((findQueue
          (sqsAddExtendedStateInternal name st
            (sqsAddExtendedStateInternal name st regs)) name).map List.length
        = some (q.length + 2 * (getMessages st).length)) := by
  unfold sqsAddExtendedStateInternal
  rw [findQueue_injectQueueRegions, findQueue_injectQueueRegions,
    findQueue_injectQueueRegions, h]
  constructor
  · simp
  · simp
    ring

theorem queue_inject_appends_payload_each_time_witness :
    ((findQueue
        (sqsAddExtendedStateInternal "q" ⟨some (some [⟨"m", none⟩])⟩
          [("r1", [("q", [])])]) "q").map List.length
      = some (List.length ([] : List MsgDict) + 1))
    ∧ ((findQueue
        (sqsAddExtendedStateInternal "q" ⟨some (some [⟨"m", none⟩])⟩
          (sqsAddExtendedStateInternal "q" ⟨some (some [⟨"m", none⟩])⟩
            [("r1", [("q", [])])])) "q").map List.length
      = some (List.length ([] : List MsgDict) + 2 * 1)) :=
  queue_inject_appends_payload_each_time "q" ⟨some (some [⟨"m", none⟩])⟩
    [("r1", [("q", [])])] [] (by decide)

/-- C9: queue injection targets exactly the first region (in registry
order) holding a queue of the target name: every region before it (none of
which holds the queue) and every region after it — even when a later region
also holds a queue of that name — are returned unchanged, and the matched
queue receives the payload appended in payload order (with the
`MD5OfMessageAttributes` default installed on each message). -/
theorem queue_inject_first_region_wins (name : String) (st : QueueReplState)
    (pre post : SqsRegions) (r : String) (queues : QueueStore)
    (q : List MsgDict)
    (hpre : ∀ e ∈ pre, lookupQueue e.2 name = none)
    (hq : lookupQueue queues name = some q)
    (_hmulti : ∃ e ∈ post, (lookupQueue e.2 name).isSome = true) :
    sqsAddExtendedStateInternal name st (pre ++ (r, queues) :: post)
      = pre ++ (r, putQueueMessages queues name (getMessages st)) :: post
    ∧ lookupQueue (putQueueMessages queues name (getMessages st)) name
      = some (q ++ (getMessages st).map setdefaultMD5) := by
  constructor
  · unfold sqsAddExtendedStateInternal
    induction pre with
    | nil => simp [injectQueueRegions, hq]
    | cons p rest ih =>
      obtain ⟨r0, queues0⟩ := p
      have h1 : lookupQueue queues0 name = none := hpre (r0, queues0) (by simp)
      have h2 : ∀ e ∈ rest, lookupQueue e.2 name = none :=
        fun e he => hpre e (by simp [he])
      simp [injectQueueRegions, h1, ih h2]
  · rw [lookupQueue_putQueueMessages, hq]
    rfl

theorem queue_inject_first_region_wins_witness :
    sqsAddExtendedStateInternal "q" ⟨some (some [⟨"m", none⟩])⟩
        ([("r0", [("p", [])])] ++ ("r1", [("q", [])]) ::
          [("r2", [("q", [⟨"x", none⟩])])])
      = [("r0", [("p", [])])] ++
          ("r1", putQueueMessages [("q", [])] "q"
            (getMessages ⟨some (some [⟨"m", none⟩])⟩)) ::
          [("r2", [("q", [⟨"x", none⟩])])]
    ∧ lookupQueue (putQueueMessages [("q", [])] "q"
          (getMessages ⟨some (some [⟨"m", none⟩])⟩)) "q"
      = some ([] ++ (getMessages
          (⟨some (some [⟨"m", none⟩])⟩ : QueueReplState)).map setdefaultMD5) :=
  queue_inject_first_region_wins "q" ⟨some (some [⟨"m", none⟩])⟩
    [("r0", [("p", [])])] [("r2", [("q", [⟨"x", none⟩])])] "r1" [("q", [])] []
    (by decide) (by decide) (by decide)

lemma drainLoop_eq_join (polls : Nat → PollResponse) :
    ∀ (fuel i : Nat) (acc : List MsgDict) (n : Nat), n < fuel →
      isEmptyResp (polls (i + n)) = true →
      drainLoop polls fuel i acc
        = some (acc ++ (pollBatches polls fuel i).flatten) := by
  intro fuel
  induction fuel with
  | zero => intro i acc n hn; omega
  | succ fuel ih =>
    intro i acc n hn hempty
    cases h : polls i with
    | none => simp [drainLoop, pollBatches, h]
    | some msgs =>
      cases msgs with
      | nil => simp [drainLoop, pollBatches, h]
      | cons m ms =>
        cases n with
        | zero =>
          rw [Nat.add_zero] at hempty
          rw [h] at hempty
          simp [isEmptyResp] at hempty
        | succ n =>
          have hstep : i + (n + 1) = (i + 1) + n := by omega
          rw [hstep] at hempty
          have := ih (i + 1) (acc ++ (m :: ms)) n (by omega) hempty
          simp only [drainLoop, pollBatches, h, this, List.flatten]
          simp

/-- C6: the queue drain loop stops exactly at the first poll whose response
carries no messages; whenever some poll within the fuel bound is empty, the
loop terminates and returns every message received before that poll, batch
by batch in arrival order (the concatenation of the nonempty batches). -/
theorem queue_enumeration_drains_until_empty (polls : Nat → PollResponse)
    (fuel n : Nat) (hn : n < fuel)
    (hempty : isEmptyResp (polls n) = true) :
    drainLoop polls fuel 0 [] = some (pollBatches polls fuel 0).flatten := by
  have := drainLoop_eq_join polls fuel 0 [] n hn (by rw [Nat.zero_add]; exact hempty)
  simpa using this

theorem queue_enumeration_drains_until_empty_witness :
    drainLoop (fun i => if i = 0 then some [⟨"a", none⟩] else some []) 2 0 []
      = some (pollBatches
          (fun i => if i = 0 then some [⟨"a", none⟩] else some []) 2 0).flatten :=
  queue_enumeration_drains_until_empty
    (fun i => if i = 0 then some [⟨"a", none⟩] else some []) 2 1
    (by decide) (by decide)

lemma ddbScanLoop_eq (remote : Option String → ScanPage) :
    ∀ (fuel : Nat) (k : Option String) (t : DDBTable) (effs : List Effect),
      ddbTerminates remote fuel k = true →
      ddbScanLoop remote fuel k t effs
        = some (ddbWriteRows t ((ddbPages remote fuel k).map ScanPage.items).flatten,
            effs ++ ((ddbPages remote fuel k).map fun p =>
              p.items.map fun it =>
                Effect.localServicePut "dynamodb" it.key).flatten) := by
  intro fuel
  induction fuel with
  | zero => intro k t effs hterm; simp [ddbTerminates] at hterm
  | succ fuel ih =>
    intro k t effs hterm
    cases h : (remote k).lastEvaluatedKey with
    | none =>
      simp only [ddbScanLoop, ddbPages, h]
      simp [ddbWriteRows]
    | some k2 =>
      have hterm2 : ddbTerminates remote fuel (some k2) = true := by
        simpa only [ddbTerminates, h] using hterm
      have := ih (some k2) (ddbWriteRows t (remote k).items)
        (effs ++ ((remote k).items.map fun it =>
          Effect.localServicePut "dynamodb" it.key)) hterm2
      simp only [ddbScanLoop, ddbPages, h, this]
      simp [ddbWriteRows, List.foldl_append]

/-- C7: the table scan loop starts with a keyless request, resumes each
later request from the previous response's continuation key (definitionally
in `ddbScanLoop`), and runs until a response carries no continuation key;
whenever the continuation-key chain reaches a keyless page within the fuel
bound, the loop terminates and the local table ends up with every row of
every visited page batch-written into it, so tables spanning several pages
are fully replicated. -/
theorem table_scan_replicates_all_pages (remote : Option String → ScanPage)
    (t : DDBTable) (fuel : Nat)
    (hterm : ddbTerminates remote fuel none = true) :
    ddbAddExtendedStateExternal remote t fuel
      = some (ddbWriteRows t ((ddbPages remote fuel none).map ScanPage.items).flatten,
          ((ddbPages remote fuel none).map fun p =>
            p.items.map fun it =>
              Effect.localServicePut "dynamodb" it.key).flatten) := by
  have := ddbScanLoop_eq remote fuel none t [] hterm
  simpa [ddbAddExtendedStateExternal] using this

/-- A two-page remote table: the first scan (no start key) returns one row
and continuation key `k1`; the scan resuming from `k1` returns a second row
and no continuation key. -/
def twoPageRemote : Option String → ScanPage := fun k =>
  match k with
  | none => { items := [⟨"pk1", [("a", "1")]⟩], lastEvaluatedKey := some "k1" }
  | some _ => { items := [⟨"pk2", [("a", "2")]⟩], lastEvaluatedKey := none }

theorem table_scan_replicates_all_pages_witness :
    ddbAddExtendedStateExternal twoPageRemote (fun _ => none) 2
      = some (ddbWriteRows (fun _ => none)
            ((ddbPages twoPageRemote 2 none).map ScanPage.items).flatten,
          ((ddbPages twoPageRemote 2 none).map fun p =>
            p.items.map fun it =>
              Effect.localServicePut "dynamodb" it.key).flatten) :=
  table_scan_replicates_all_pages twoPageRemote (fun _ => none) 2 (by decide)

lemma s3Fold_untouched_key (objs : List S3Obj) :
    ∀ (b : S3LocalBucket) (es : List Effect) (k : String),
      (∀ o ∈ objs, o.key = k → o.size > maxObjectSize) →
      (objs.foldl copyObject (b, es)).1 k = b k := by
  induction objs with
  | nil => intro b es k _; rfl
  | cons x rest ih =>
    intro b es k h
    by_cases hx : x.size > maxObjectSize
    · simp only [List.foldl_cons, copyObject, if_pos hx]
      exact ih b es k fun o ho => h o (by simp [ho])
    · have hk : ¬ k = x.key := by
        intro hkk
        exact hx (h x (by simp) hkk.symm)
      simp only [List.foldl_cons, copyObject, if_neg hx]
      rw [ih _ _ k fun o ho => h o (by simp [ho])]
      simp [hk]

lemma s3Fold_copied_key (objs : List S3Obj) :
    ∀ (b : S3LocalBucket) (es : List Effect),
      (objs.map S3Obj.key).Nodup →
      ∀ o ∈ objs, o.size ≤ maxObjectSize →
        (objs.foldl copyObject (b, es)).1 o.key = some o.content := by
  induction objs with
  | nil => intro b es _ o ho; simp at ho
  | cons x rest ih =>
    intro b es hnodup o ho hsize
    have hnodup2 : (rest.map S3Obj.key).Nodup := by
      simpa using hnodup.of_cons
    rcases List.mem_cons.mp ho with rfl | ho2
    · have hx : ¬ o.size > maxObjectSize := by omega
      simp only [List.foldl_cons, copyObject, if_neg hx]
      have hnotin : ∀ o2 ∈ rest, o2.key = o.key → o2.size > maxObjectSize := by
        intro o2 ho2 hkey
        exfalso
        rw [List.map_cons] at hnodup
        exact (List.nodup_cons.mp hnodup).1 (List.mem_map.mpr ⟨o2, ho2, hkey⟩)
      rw [s3Fold_untouched_key rest _ _ o.key hnotin]
      simp
    · by_cases hx : x.size > maxObjectSize
      · simp only [List.foldl_cons, copyObject, if_pos hx]
        exact ih b es hnodup2 o ho2 hsize
      · simp only [List.foldl_cons, copyObject, if_neg hx]
        exact ih _ _ hnodup2 o ho2 hsize

/-- C1 (counterexample): an object whose size is exactly the threshold
(1,000,000 bytes) is NOT excluded — `copy_object` skips only objects with
`obj.size > max_object_size`, so the boundary object's content is written
into the local bucket. -/
theorem bucket_threshold_boundary_counterexample :
    (s3AddExtendedStateExternal (fun _ => none)
        [⟨"boundary", 1000 * 1000, List.replicate (1000 * 1000) 0⟩]).1 "boundary"
      = some (List.replicate (1000 * 1000) 0) := by
  have hno : ¬ ((1000 * 1000 : Nat) > maxObjectSize) := by
    norm_num [maxObjectSize]
  generalize List.replicate (1000 * 1000) (0 : Nat) = c
  simp [s3AddExtendedStateExternal, copyObject, hno]

/-- C1 (amended): bucket enumeration copies every remote object whose size
is at or below the 1,000,000-byte threshold into the local bucket with
byte-exact content, and excludes (skips) exactly the objects whose size is
strictly above the threshold — a key all of whose listed objects are
oversized is left untouched locally. -/
theorem bucket_threshold_policy (localBucket : S3LocalBucket)
    (objs : List S3Obj) :
    (∀ k, (∀ o ∈ objs, o.key = k → o.size > maxObjectSize) →
        (s3AddExtendedStateExternal localBucket objs).1 k = localBucket k)
    ∧ ((objs.map S3Obj.key).Nodup →
        ∀ o ∈ objs, o.size ≤ maxObjectSize →
          (s3AddExtendedStateExternal localBucket objs).1 o.key
            = some o.content) := by
  constructor
  · intro k h
    exact s3Fold_untouched_key objs localBucket [] k h
  · intro hnodup o ho hsize
    exact s3Fold_copied_key objs localBucket [] hnodup o ho hsize

/-- A two-object listing for the witness: one small object and one object
strictly above the threshold. -/
def c1Objs : List S3Obj :=
  [⟨"small", 3, [1, 2, 3]⟩, ⟨"big", 2000000, [7]⟩]

theorem bucket_threshold_policy_witness :
    (s3AddExtendedStateExternal (fun _ => none) c1Objs).1 "big" = none
    ∧ (s3AddExtendedStateExternal (fun _ => none) c1Objs).1 "small"
        = some [1, 2, 3] :=
  ⟨(bucket_threshold_policy (fun _ => none) c1Objs).1 "big" (by decide),
   (bucket_threshold_policy (fun _ => none) c1Objs).2 (by decide)
     ⟨"small", 3, [1, 2, 3]⟩ (by decide) (by decide)⟩

lemma usesBridge_append (a b : List Effect) :
    usesBridge (a ++ b) = (usesBridge a || usesBridge b) := by
  simp [usesBridge, List.any_append]

lemma usesBridge_localServicePut_map (items : List TableItem) (svc : String) :
    usesBridge (items.map fun it => Effect.localServicePut svc it.key)
      = false := by
  induction items with
  | nil => rfl
  | cons it rest ih => simp [usesBridge] at ih ⊢

lemma ddbScanLoop_no_bridge (remote : Option String → ScanPage) :
    ∀ (fuel : Nat) (k : Option String) (t : DDBTable) (effs : List Effect)
      (result : DDBTable × List Effect),
      usesBridge effs = false →
      ddbScanLoop remote fuel k t effs = some result →
      usesBridge result.2 = false := by
  intro fuel
  induction fuel with
  | zero => intro k t effs result _ hrun; simp [ddbScanLoop] at hrun
  | succ fuel ih =>
    intro k t effs result heffs hrun
    have heffs2 : usesBridge (effs ++ (remote k).items.map fun it =>
        Effect.localServicePut "dynamodb" it.key) = false := by
      rw [usesBridge_append, heffs, usesBridge_localServicePut_map]
      rfl
    rcases h : (remote k).lastEvaluatedKey with _ | k2
    · simp only [ddbScanLoop, h] at hrun
      cases hrun
      exact heffs2
    · simp only [ddbScanLoop, h] at hrun
      exact ih (some k2) _ _ result heffs2 hrun

lemma s3Fold_no_bridge (objs : List S3Obj) :
    ∀ (b : S3LocalBucket) (es : List Effect),
      usesBridge es = false →
      usesBridge (objs.foldl copyObject (b, es)).2 = false := by
  induction objs with
  | nil => intro b es h; exact h
  | cons x rest ih =>
    intro b es h
    by_cases hx : x.size > maxObjectSize
    · simp only [List.foldl_cons, copyObject, if_pos hx]
      exact ih b es h
    · simp only [List.foldl_cons, copyObject, if_neg hx]
      refine ih _ _ ?_
      rw [usesBridge_append, h]
      rfl

/-- C5 (counterexample): a completed table replication run never touches
the transport bridge — on a concrete one-page remote table the run
finishes and its effect trace contains no POST to the internal instance,
refuting the claim that the table kind transmits through the wire
envelope. -/
theorem table_kind_bypasses_bridge_counterexample :
    (ddbAddExtendedStateExternal
        (fun _ => { items := [⟨"pk1", [("a", "1")]⟩], lastEvaluatedKey := none })
        (fun _ => none) 1).map (fun r => usesBridge r.2)
      = some false := by
  rfl

/-- C5 (amended): only the queue kind routes its enumerated state through
the transport bridge (its effect trace is exactly one POST of the envelope
to the internal instance); both the table kind and the bucket kind write
via the direct local service client and never post an envelope. -/
theorem only_queue_kind_uses_bridge :
    (∀ (qn qu : String) (polls : Nat → PollResponse) (fuel : Nat)
        (req : ReplicateStateRequest) (effs : List Effect),
        sqsAddExtendedStateExternal qn qu polls fuel = some (req, effs) →
        effs = [Effect.postToInstance req] ∧ usesBridge effs = true)
    ∧ (∀ (remote : Option String → ScanPage) (t : DDBTable) (fuel : Nat)
        (result : DDBTable × List Effect),
        ddbAddExtendedStateExternal remote t fuel = some result →
        usesBridge result.2 = false)
    ∧ (∀ (b : S3LocalBucket) (objs : List S3Obj),
        usesBridge (s3AddExtendedStateExternal b objs).2 = false) := by
  refine ⟨?_, ?_, ?_⟩
  · intro qn qu polls fuel req effs h
    unfold sqsAddExtendedStateExternal at h
    cases hd : drainLoop polls fuel 0 [] with
    | none => rw [hd] at h; cases h
    | some msgs =>
      rw [hd] at h
      cases h
      exact ⟨rfl, rfl⟩
  · intro remote t fuel result h
    exact ddbScanLoop_no_bridge remote fuel none t [] result rfl h
  · intro b objs
    exact s3Fold_no_bridge objs b [] rfl

theorem only_queue_kind_uses_bridge_witness :
    ([Effect.postToInstance
        { resourceType := "AWS::SQS::Queue", physicalResourceId := "u"
          properties := { queueName := "q", messages := [] } }]
      = [Effect.postToInstance
          { resourceType := "AWS::SQS::Queue", physicalResourceId := "u"
            properties := { queueName := "q", messages := [] } }]
      ∧ usesBridge [Effect.postToInstance
          { resourceType := "AWS::SQS::Queue", physicalResourceId := "u"
            properties := { queueName := "q", messages := [] } }] = true)
    ∧ usesBridge (ddbWriteRows (fun _ => none)
          [⟨"pk1", [("a", "1")]⟩],
        [Effect.localServicePut "dynamodb" "pk1"]).2 = false
    ∧ usesBridge (s3AddExtendedStateExternal (fun _ => none)
        [⟨"o", 1, [9]⟩]).2 = false :=
  ⟨only_queue_kind_uses_bridge.1 "q" "u" (fun _ => some []) 1 _ _ (by rfl),
   only_queue_kind_uses_bridge.2.1
     (fun _ => { items := [⟨"pk1", [("a", "1")]⟩], lastEvaluatedKey := none })
     (fun _ => none) 1 _ (by rfl),
   only_queue_kind_uses_bridge.2.2 (fun _ => none) [⟨"o", 1, [9]⟩]⟩
